import Mathlib

/-!
Verification of the doodle-rs on-device pipeline against its design
specification.

The Rust sources are shallowly embedded:
* strings are `List Char` (`Str`), so every parsing routine of the firmware
  is a structurally recursive Lean function over character lists;
* the heapless 512-byte response `String` is a list with byte-counted
  capacity checks mirroring `heapless::String::push_str` / `push`;
* the embassy inter-task byte pipe (`Pipe<CriticalSectionRawMutex, 64>`) is a
  byte list with the documented `write` / `try_read` semantics;
* the 48×48 boolean canvas of `display_task.rs` is a list of boolean rows,
  mutated by `List.set`.
-/

/-- Characters of a Rust `&str`, in order. -/
abbrev Str := List Char

/-- Shorthand: the character list of a string literal. -/
def str (s : String) : Str := s.data

/- ===================== display_task.rs ===================== -/

/-- `CANVAS_SIZE` from `display_task.rs`. -/
def CANVAS_SIZE : Nat := 48

/-- The drawing canvas `[[bool; CANVAS_SIZE]; CANVAS_SIZE]`, row-major:
`canvas[y][x]`. -/
abbrev Canvas := List (List Bool)

/-- The initial canvas `[[false; CANVAS_SIZE]; CANVAS_SIZE]`. -/
def clearedCanvas : Canvas :=
  List.replicate CANVAS_SIZE (List.replicate CANVAS_SIZE false)

/-- Read cell `canvas[y][x]` (out-of-range reads default to `false`;
the firmware only indexes in range). -/
def canvasGet (c : Canvas) (y x : Nat) : Bool :=
  (c.getD y []).getD x false

/-- In-place update `canvas[y][x] = b` of `display_task.rs`. -/
def canvasSet (c : Canvas) (y x : Nat) (b : Bool) : Canvas :=
  c.set y ((c.getD y []).set x b)

/-- The clear loop of `update_canvas`: `*pixel = false` over every row. -/
def clearCanvasOp (c : Canvas) : Canvas :=
  c.map (fun row => row.map (fun _ => false))

/-- Model of `embassy_sync::pipe::Reader::try_read` into the 3-byte buffer of
`update_canvas`: an error when the pipe is empty, otherwise it consumes and
returns `min 3 available` bytes. -/
def tryReadUpTo3 (pipe : List Nat) : Option (List Nat × List Nat) :=
  if pipe = [] then none else some (pipe.take 3, pipe.drop 3)

/-- `update_canvas` from `display_task.rs`: drain one record from the pipe and
apply it. Returns the new canvas, the remaining pipe contents, and the
"canvas updated" flag the render loop uses to decide whether to redraw. -/
def update_canvas (canvas : Canvas) (pipe : List Nat) :
    Canvas × List Nat × Bool :=
  match tryReadUpTo3 pipe with
  | none => (canvas, pipe, false)
  | some (buffer, rest) =>
    if buffer.length = 3 then
      let x := buffer.getD 0 0
      let y := buffer.getD 1 0
      let state := buffer.getD 2 0
      if x = 255 ∧ y = 255 ∧ state = 2 then
        (clearCanvasOp canvas, rest, true)
      else if x < CANVAS_SIZE ∧ y < CANVAS_SIZE then
        (canvasSet canvas y x (state == 1), rest, true)
      else
        (canvas, rest, false)
    else
      (canvas, rest, false)

/- Helper lemmas about list cells. -/

theorem getD_set_self {α : Type} (l : List α) (n : Nat) (a d : α)
    (h : n < l.length) : (l.set n a).getD n d = a := by
  induction l generalizing n with
  | nil => simp at h
  | cons x xs ih =>
    cases n with
    | zero => simp [List.set, List.getD]
    | succ m =>
      simp only [List.set, List.getD_cons_succ]
      exact ih m (by simpa using h)

theorem getD_set_ne {α : Type} (l : List α) (n m : Nat) (a d : α)
    (h : n ≠ m) : (l.set n a).getD m d = l.getD m d := by
  induction l generalizing n m with
  | nil => simp [List.set]
  | cons x xs ih =>
    cases n with
    | zero =>
      cases m with
      | zero => exact absurd rfl h
      | succ k => simp [List.set]
    | succ n' =>
      cases m with
      | zero => simp [List.set]
      | succ k =>
        simp only [List.set, List.getD_cons_succ]
        exact ih n' k (fun hc => h (by rw [hc]))

theorem getD_replicate {α : Type} (n k : Nat) (a d : α) (h : k < n) :
    (List.replicate n a).getD k d = a := by
  induction n generalizing k with
  | zero => omega
  | succ m ih =>
    cases k with
    | zero => simp [List.replicate]
    | succ j =>
      simp only [List.replicate, List.getD_cons_succ]
      exact ih j (by omega)

theorem getD_map_false (row : List Bool) (x : Nat) :
    (row.map (fun _ => false)).getD x false = false := by
  induction row generalizing x with
  | nil => simp
  | cons a t ih =>
    cases x with
    | zero => simp
    | succ j => exact ih j

/-- Evaluation of one 3-byte record: the branch structure of `update_canvas`. -/
theorem update_canvas_three (c : Canvas) (x y s : Nat) :
    update_canvas c [x, y, s] =
      (if x = 255 ∧ y = 255 ∧ s = 2 then (clearCanvasOp c, [], true)
       else if x < CANVAS_SIZE ∧ y < CANVAS_SIZE then
         (canvasSet c y x (s == 1), [], true)
       else (c, [], false)) := rfl

/-- A drain step that sees fewer than 3 bytes changes nothing and reports no
update; the bytes it did read are gone. -/
theorem update_canvas_short (c : Canvas) (pipe : List Nat)
    (h : pipe.length < 3) : update_canvas c pipe = (c, [], false) := by
  match pipe, h with
  | [], _ => rfl
  | [_], _ => rfl
  | [_, _], _ => rfl

theorem canvasGet_clearCanvasOp (c : Canvas) (y x : Nat) :
    canvasGet (clearCanvasOp c) y x = false := by
  induction c generalizing y with
  | nil => simp [clearCanvasOp, canvasGet]
  | cons row rows ih =>
    cases y with
    | zero => simp [clearCanvasOp, canvasGet, getD_map_false]
    | succ j =>
      simp only [clearCanvasOp, List.map, canvasGet, List.getD_cons_succ]
      exact ih j

/-- C4: for all `x, y < 48` and `state ∈ {true, false}`, applying the pixel
command `(x, y, state)` (delivered as the 3-byte record
`[x, y, if state then 1 else 0]`) to a cleared canvas sets
`canvas[y][x] = state`, signals a redraw, and leaves every other cell
unchanged. -/
theorem pixel_command_on_cleared_canvas (x y : Nat) (st : Bool)
    (hx : x < 48) (hy : y < 48) :
    (update_canvas clearedCanvas [x, y, if st then 1 else 0]).2.2 = true ∧
    canvasGet (update_canvas clearedCanvas [x, y, if st then 1 else 0]).1 y x
      = st ∧
    (∀ y' x', ¬(y' = y ∧ x' = x) →
      canvasGet (update_canvas clearedCanvas [x, y, if st then 1 else 0]).1
          y' x'
        = canvasGet clearedCanvas y' x') := by
  have hb : ((if st then (1 : Nat) else 0) == 1) = st := by
    cases st <;> rfl
  have hres : update_canvas clearedCanvas [x, y, if st then 1 else 0] =
      (canvasSet clearedCanvas y x st, [], true) := by
    rw [update_canvas_three, if_neg (fun hc => by omega),
      if_pos (by constructor <;> simpa [CANVAS_SIZE]), hb]
  have hylen : y < clearedCanvas.length := by
    simpa [clearedCanvas, CANVAS_SIZE] using hy
  have hrow : clearedCanvas.getD y [] = List.replicate 48 false :=
    getD_replicate _ _ _ _ (by simpa [CANVAS_SIZE] using hy)
  refine ⟨by rw [hres], ?_, ?_⟩
  · rw [hres]
    unfold canvasGet canvasSet
    rw [getD_set_self _ _ _ _ hylen, hrow,
      getD_set_self _ _ _ _ (by simpa using hx)]
  · intro y' x' hne
    rw [hres]
    unfold canvasGet canvasSet
    by_cases hyy : y = y'
    · subst hyy
      have hxx : x ≠ x' := fun hc => hne ⟨rfl, hc.symm⟩
      rw [getD_set_self _ _ _ _ hylen, getD_set_ne _ _ _ _ _ hxx]
    · rw [getD_set_ne _ _ _ _ _ hyy]

/-- Witness for `pixel_command_on_cleared_canvas` at `x = 10`, `y = 5`,
`state = true`. -/
theorem pixel_command_on_cleared_canvas_witness :
    (10 < 48 ∧ 5 < 48) ∧
    ((update_canvas clearedCanvas [10, 5, if true then 1 else 0]).2.2 = true ∧
     canvasGet (update_canvas clearedCanvas
        [10, 5, if true then 1 else 0]).1 5 10 = true ∧
     (∀ y' x', ¬(y' = 5 ∧ x' = 10) →
       canvasGet (update_canvas clearedCanvas
          [10, 5, if true then 1 else 0]).1 y' x'
         = canvasGet clearedCanvas y' x')) :=
  ⟨by decide,
   pixel_command_on_cleared_canvas 10 5 true (by decide) (by decide)⟩

/-- C5: a 3-byte record with `x ≥ 48` or `y ≥ 48` that is not the clear
sentinel `[255, 255, 2]` is rejected: the canvas is unchanged, the record is
consumed, and no redraw is signalled. -/
theorem out_of_range_record_rejected (c : Canvas) (x y s : Nat)
    (hrange : 48 ≤ x ∨ 48 ≤ y) (hsent : ¬(x = 255 ∧ y = 255 ∧ s = 2)) :
    update_canvas c [x, y, s] = (c, [], false) := by
  rw [update_canvas_three, if_neg hsent,
    if_neg (fun hc => by
      rcases hc with ⟨h1, h2⟩
      simp only [CANVAS_SIZE] at h1 h2
      omega)]

/-- Witness for `out_of_range_record_rejected` at record `[60, 5, 1]` applied
to the cleared canvas. -/
theorem out_of_range_record_rejected_witness :
    ((48 ≤ 60 ∨ 48 ≤ 5) ∧ ¬(60 = 255 ∧ 5 = 255 ∧ 1 = 2)) ∧
    update_canvas clearedCanvas [60, 5, 1] = (clearedCanvas, [], false) :=
  ⟨by decide,
   out_of_range_record_rejected clearedCanvas 60 5 1 (by decide) (by decide)⟩

/-- C6: the clear record `[255, 255, 2]` resets every cell of the canvas to
`false` regardless of prior state, and it is idempotent: applying it again —
in particular to the already-clear canvas — leaves the all-false canvas. -/
theorem clear_command_resets_canvas (c : Canvas) :
    (update_canvas c [255, 255, 2]).2.2 = true ∧
    (∀ y x, canvasGet (update_canvas c [255, 255, 2]).1 y x = false) ∧
    update_canvas (update_canvas c [255, 255, 2]).1 [255, 255, 2]
      = ((update_canvas c [255, 255, 2]).1, [], true) ∧
    (update_canvas clearedCanvas [255, 255, 2]).1 = clearedCanvas := by
  have h : ∀ d : Canvas,
      update_canvas d [255, 255, 2] = (clearCanvasOp d, [], true) := by
    intro d
    rw [update_canvas_three, if_pos ⟨rfl, rfl, rfl⟩]
  have hidem : ∀ d : Canvas, clearCanvasOp (clearCanvasOp d) =
      clearCanvasOp d := by
    intro d
    simp [clearCanvasOp, List.map_map, Function.comp]
  refine ⟨by rw [h], ?_, ?_, ?_⟩
  · intro y x
    rw [h]
    exact canvasGet_clearCanvasOp c y x
  · rw [h, h, hidem]
  · rw [h]
    simp [clearedCanvas, clearCanvasOp, List.map_replicate]

/- ===================== networking_task.rs ===================== -/

/- String utilities mirroring the Rust standard-library routines that
`networking_task.rs` uses. -/

/-- Split on a separator character, like Rust `str::split(c)` (keeps empty
pieces). -/
def splitOnChar (c : Char) : Str → List Str
  | [] => [[]]
  | a :: rest =>
    let r := splitOnChar c rest
    if a = c then [] :: r
    else
      match r with
      | [] => [[a]]
      | s :: ss => (a :: s) :: ss

/-- Drop a final empty piece (Rust `str::lines` does not yield a line after a
trailing newline). -/
def dropLastEmpty (l : List Str) : List Str :=
  match l.getLast? with
  | some [] => l.dropLast
  | _ => l

/-- Strip one trailing carriage return, as Rust `str::lines` does per line. -/
def stripCR (s : Str) : Str :=
  if s.getLast? = some '\r' then s.dropLast else s

/-- Rust `str::lines`: split on `'\n'`, drop the piece after a trailing
newline, strip one trailing `'\r'` from each line. -/
def rustLines (s : Str) : List Str :=
  (dropLastEmpty (splitOnChar '\n' s)).map stripCR

/-- Split on a character predicate (keeps empty pieces). -/
def splitPred (p : Char → Bool) : Str → List Str
  | [] => [[]]
  | a :: rest =>
    let r := splitPred p rest
    if p a then [] :: r
    else
      match r with
      | [] => [[a]]
      | s :: ss => (a :: s) :: ss

/-- Rust `str::split_whitespace`: whitespace-separated pieces, no empties. -/
def splitWs (s : Str) : List Str :=
  (splitPred Char.isWhitespace s).filter (fun t => !t.isEmpty)

/-- Rust `str::trim`. -/
def trimStr (s : Str) : Str :=
  ((s.dropWhile Char.isWhitespace).reverse.dropWhile Char.isWhitespace).reverse

/-- Rust `str::trim_start_matches (c)`: drop every leading occurrence. -/
def trimStartMatchesC (c : Char) (s : Str) : Str :=
  s.dropWhile (fun a => a = c)

/-- Rust `str::trim_end_matches (c)`: drop every trailing occurrence. -/
def trimEndMatchesC (c : Char) (s : Str) : Str :=
  (s.reverse.dropWhile (fun a => a = c)).reverse

/-- Rust `str::trim_matches (c)`: drop every leading and trailing
occurrence. -/
def trimMatchesC (c : Char) (s : Str) : Str :=
  trimEndMatchesC c (trimStartMatchesC c s)

/-- Rust `str::find (&str)`: index of the first occurrence of a substring. -/
def findSubstr (needle : Str) : Str → Option Nat
  | [] => if needle = [] then some 0 else none
  | c :: rest =>
    if List.isPrefixOf needle (c :: rest) then some 0
    else (findSubstr needle rest).map (fun i => i + 1)

/-- Rust `str::find (char)`: index of the first occurrence of a character. -/
def findCharIdx (c : Char) : Str → Option Nat
  | [] => none
  | a :: rest => if a = c then some 0 else (findCharIdx c rest).map (fun i => i + 1)

/-- The opening-brace character (ASCII 123). -/
def lbrace : Char := Char.ofNat 123

/-- The closing-brace character (ASCII 125). -/
def rbrace : Char := Char.ofNat 125

/-- Rust `str::parse::<u8>()`: optional leading `'+'`, then ASCII digits,
value at most 255. -/
def parseU8 (s : Str) : Option Nat :=
  let digits := match s with
    | c :: rest => if c = '+' then rest else s
    | [] => []
  if digits = [] then none
  else if digits.all (fun c => c.isDigit) then
    let n := digits.foldl (fun a c => a * 10 + (c.toNat - 48)) 0
    if n ≤ 255 then some n else none
  else none

/-- Rust `str::parse::<bool>()`: exactly `true` or `false`. -/
def parseBool (s : Str) : Option Bool :=
  if s = str "true" then some true
  else if s = str "false" then some false
  else none

/-- The `PixelRequest` struct of `networking_task.rs` (`x: u8, y: u8,
state: bool`; the parser guarantees `x, y < 48`). -/
structure PixelRequest where
  x : Nat
  y : Nat
  state : Bool
deriving DecidableEq

/-- `extract_json_body` from `networking_task.rs`: everything after the first
blank line, trimmed; `none` when absent or blank. -/
def extract_json_body (request : Str) : Option Str :=
  match findSubstr (str "\r\n\r\n") request with
  | some i =>
    let body := request.drop (i + 4)
    let t := trimStr body
    if t = [] then none else some t
  | none => none

/-- `parse_pixel_request` from `networking_task.rs`: the minimal hand-rolled
key/value scanner — strip enclosing braces, split on commas, split each pair
at its first colon, trim quotes/whitespace from the key, parse the value per
field type, and bounds-check `x, y < 48`. -/
def parse_pixel_request (json : Str) : Option PixelRequest :=
  let cleaned := trimEndMatchesC rbrace (trimStartMatchesC lbrace
    (trimStr json))
  let step : (Option Nat × Option Nat × Option Bool) → Str →
      (Option Nat × Option Nat × Option Bool) := fun acc pair0 =>
    let pair := trimStr pair0
    match findCharIdx ':' pair with
    | none => acc
    | some i =>
      let key := trimMatchesC '"' (trimStr (pair.take i))
      let value := trimStr (pair.drop (i + 1))
      if key = str "x" then (parseU8 value, acc.2.1, acc.2.2)
      else if key = str "y" then (acc.1, parseU8 value, acc.2.2)
      else if key = str "state" then (acc.1, acc.2.1, parseBool value)
      else acc
  match (splitOnChar ',' cleaned).foldl step (none, none, none) with
  | (some xv, some yv, some sv) =>
    if xv < 48 ∧ yv < 48 then some ⟨xv, yv, sv⟩ else none
  | _ => none

/- The heapless 512-byte response string. -/

/-- UTF-8 byte length of a character list (heapless strings count bytes). -/
def strBytes (s : Str) : Nat := (s.map Char.utf8Size).sum

/-- `heapless::String::<512>::push_str`: append if the bytes fit, otherwise
leave the string unchanged (the firmware discards the `Err`). -/
def pushStr (r t : Str) : Str :=
  if strBytes r + strBytes t ≤ 512 then r ++ t else r

/-- `heapless::String::<512>::push`: append one character if it fits. -/
def pushChar (r : Str) (c : Char) : Str :=
  if strBytes r + c.utf8Size ≤ 512 then r ++ [c] else r

/-- `(b'0' + d) as char` for a decimal digit. -/
def digitChar (d : Nat) : Char := Char.ofNat (48 + d)

/-- The digit-extraction loop of `build_simple_response`: little-endian
decimal digits of `n` into a `[0u8; 8]` buffer; `none` models the
out-of-bounds panic when `n` has more than 8 digits. -/
def digitLoopRec : Nat → Nat → Option (List Nat)
  | _, 0 => some []
  | 0, _ + 1 => none
  | slots + 1, n + 1 =>
    (digitLoopRec slots ((n + 1) / 10)).map (fun rest => (n + 1) % 10 :: rest)

/-- The fixed response header template of `build_simple_response`, up to the
`Content-Length` value. -/
def headerTemplate : Str :=
  str "HTTP/1.1 200 OK\r\nAccess-Control-Allow-Origin: *\r\nAccess-Control-Allow-Methods: GET, POST, OPTIONS\r\nAccess-Control-Allow-Headers: Content-Type\r\nConnection: close\r\nContent-Type: text/plain\r\nContent-Length: "

/-- `build_simple_response` from `networking_task.rs`: the header template,
the decimal `Content-Length` digits, `\r\n\r\n`, then the body — every piece
appended through the capacity-checked 512-byte heapless string. `none`
models the panic of the digit loop on a body of 10^8 bytes or more. -/
def build_simple_response (body : Str) : Option Str :=
  let r := pushStr [] (str "HTTP/1.1 200 OK\r\n")
  let r := pushStr r (str "Access-Control-Allow-Origin: *\r\n")
  let r := pushStr r (str "Access-Control-Allow-Methods: GET, POST, OPTIONS\r\n")
  let r := pushStr r (str "Access-Control-Allow-Headers: Content-Type\r\n")
  let r := pushStr r (str "Connection: close\r\n")
  let r := pushStr r (str "Content-Type: text/plain\r\n")
  let r := pushStr r (str "Content-Length: ")
  let bodyLen := strBytes body
  let digitsBE : Option (List Nat) :=
    if bodyLen = 0 then some [0]
    else (digitLoopRec 8 bodyLen).map List.reverse
  match digitsBE with
  | none => none
  | some ds =>
    let r := ds.foldl (fun acc d => pushChar acc (digitChar d)) r
    let r := pushStr r (str "\r\n\r\n")
    let r := pushStr r body
    some r

/-- The result of `handle_http_request`: the response string (`none` models a
panic) and the byte records written to the pixel pipe, in order. -/
structure HandleResult where
  response : Option Str
  writes : List (List Nat)
deriving DecidableEq

/-- `handle_http_request` from `networking_task.rs`: parse the request line,
dispatch on method and path, and for `POST /pixel` run the JSON scanner;
every route answers through `build_simple_response`. -/
def handle_http_request (request : Str) : HandleResult :=
  let lines := rustLines request
  if lines = [] then ⟨build_simple_response (str "Bad Request"), []⟩
  else
    let request_line := lines.headD []
    let parts := splitWs request_line
    if parts.length < 2 then ⟨build_simple_response (str "Bad Request"), []⟩
    else
      let method := parts.getD 0 []
      let path := parts.getD 1 []
      if method = str "OPTIONS" then ⟨build_simple_response [], []⟩
      else if method = str "POST" ∧ path = str "/pixel" then
        match extract_json_body request with
        | some json_body =>
          match parse_pixel_request json_body with
          | some pr =>
            ⟨build_simple_response (str "OK"),
             [[pr.x, pr.y, if pr.state then 1 else 0]]⟩
          | none => ⟨build_simple_response (str "Invalid JSON"), []⟩
        | none => ⟨build_simple_response (str "Missing JSON"), []⟩
      else if method = str "POST" ∧ path = str "/clear" then
        ⟨build_simple_response (str "Cleared"), [[255, 255, 2]]⟩
      else if method = str "GET" ∧ path = str "/" then
        ⟨build_simple_response (str "Doodle-RS Ready!"), []⟩
      else ⟨build_simple_response (str "Not Found"), []⟩

set_option maxRecDepth 10000

/- Concrete evaluations of `build_simple_response` on the firmware's fixed
bodies, and the status-line prefix fact shared by every route. -/

theorem isPrefixOf_append {p l s : Str} (h : List.isPrefixOf p l = true) :
    List.isPrefixOf p (l ++ s) = true := by
  rw [List.isPrefixOf_iff_prefix] at h ⊢
  exact h.trans ⟨s, rfl⟩

theorem response_starts_200 (s : Str) :
    List.isPrefixOf (str "HTTP/1.1 200 OK") (headerTemplate ++ s) = true :=
  isPrefixOf_append (by decide)

theorem build_resp_OK :
    build_simple_response (str "OK")
      = some (headerTemplate ++ str "2\r\n\r\nOK") := by decide

theorem build_resp_invalid :
    build_simple_response (str "Invalid JSON")
      = some (headerTemplate ++ str "12\r\n\r\nInvalid JSON") := by decide

theorem build_resp_missing :
    build_simple_response (str "Missing JSON")
      = some (headerTemplate ++ str "12\r\n\r\nMissing JSON") := by decide

theorem build_resp_cleared :
    build_simple_response (str "Cleared")
      = some (headerTemplate ++ str "7\r\n\r\nCleared") := by decide

/-- C1 counterexample: the `POST /pixel` request with malformed JSON body
`notjson` is answered with status line `HTTP/1.1 200 OK` (body
`Invalid JSON`), not with a `400 Bad Request` status. -/
theorem pixel_malformed_answered_200_not_400 :
    (handle_http_request
        (str "POST /pixel HTTP/1.1\r\nHost: p\r\n\r\nnotjson")).response
      = some (headerTemplate ++ str "12\r\n\r\nInvalid JSON") ∧
    List.isPrefixOf (str "HTTP/1.1 400")
      ((handle_http_request
          (str "POST /pixel HTTP/1.1\r\nHost: p\r\n\r\nnotjson")).response.getD
        []) = false ∧
    List.isPrefixOf (str "HTTP/1.1 200 OK")
      ((handle_http_request
          (str "POST /pixel HTTP/1.1\r\nHost: p\r\n\r\nnotjson")).response.getD
        []) = true := by decide

/-- C1 (amended): every `POST /pixel` request (within the firmware's
collection capacities: at most 32 request lines and 8 request-line tokens)
produces a response — never an aborted connection — whose status line is
`HTTP/1.1 200 OK` in all cases; malformed JSON, missing fields or
out-of-range coordinates are reported only through the body (`Missing JSON`
or `Invalid JSON`) with no pipe write, while a well-formed in-range body
yields body `OK` and the single pipe write of the pixel record. -/
theorem pixel_route_always_200 (request : Str)
    (_hlines : (rustLines request).length ≤ 32)
    (_hparts : (splitWs ((rustLines request).headD [])).length ≤ 8)
    (hlen2 : 2 ≤ (splitWs ((rustLines request).headD [])).length)
    (hmethod : (splitWs ((rustLines request).headD [])).getD 0 [] = str "POST")
    (hpath : (splitWs ((rustLines request).headD [])).getD 1 []
      = str "/pixel") :
    ∃ r, (handle_http_request request).response = some r ∧
      List.isPrefixOf (str "HTTP/1.1 200 OK") r = true ∧
      (handle_http_request request).writes =
        (match extract_json_body request with
         | none => []
         | some j =>
           match parse_pixel_request j with
           | none => []
           | some pr => [[pr.x, pr.y, if pr.state then 1 else 0]]) ∧
      (extract_json_body request = none →
        r = headerTemplate ++ str "12\r\n\r\nMissing JSON") ∧
      (∀ j, extract_json_body request = some j → parse_pixel_request j = none →
        r = headerTemplate ++ str "12\r\n\r\nInvalid JSON") ∧
      (∀ j pr, extract_json_body request = some j →
        parse_pixel_request j = some pr →
        r = headerTemplate ++ str "2\r\n\r\nOK") := by
  rcases hl : rustLines request with _ | ⟨l0, ltail⟩
  · rw [hl] at hmethod
    exact absurd hmethod (by decide)
  · rw [hl] at hmethod hpath hlen2
    simp only [handle_http_request, hl]
    simp only [List.headD] at hmethod hpath hlen2 ⊢
    rw [if_neg (by simp), if_neg (by omega)]
    simp only [hmethod, hpath]
    rw [if_neg (by decide), if_pos (by simp)]
    rcases he : extract_json_body request with _ | j
    · refine ⟨headerTemplate ++ str "12\r\n\r\nMissing JSON",
        ?_, ?_, ?_, ?_, ?_, ?_⟩
      · exact build_resp_missing
      · exact response_starts_200 _
      · rfl
      · intro _; rfl
      · intro j hj; exact absurd hj (by simp)
      · intro j pr hj; exact absurd hj (by simp)
    · rcases hp : parse_pixel_request j with _ | pr
      · refine ⟨headerTemplate ++ str "12\r\n\r\nInvalid JSON", ?_,
          response_starts_200 _, ?_, ?_, ?_, ?_⟩
        · simp only [hp]; exact build_resp_invalid
        · simp [hp]
        · intro hc; cases hc
        · intro j' hj' _; cases hj'; rfl
        · intro j' pr' hj' hp'; cases hj'; rw [hp] at hp'; cases hp'
      · refine ⟨headerTemplate ++ str "2\r\n\r\nOK", ?_,
          response_starts_200 _, ?_, ?_, ?_, ?_⟩
        · simp only [hp]; exact build_resp_OK
        · simp [hp]
        · intro hc; cases hc
        · intro j' hj' hp'; cases hj'; rw [hp] at hp'; cases hp'
        · intro j' pr' hj' hp'; cases hj'; rfl

/-- A well-formed `POST /pixel` request with body
`{"x":10,"y":5,"state":true}`. -/
def pixelOkRequest : Str :=
  str "POST /pixel HTTP/1.1\r\nContent-Type: application/json\r\n\r\n\x7b\"x\":10,\"y\":5,\"state\":true\x7d"

/-- Witness for `pixel_route_always_200` at a concrete well-formed request. -/
theorem pixel_route_always_200_witness :
    ((rustLines pixelOkRequest).length ≤ 32 ∧
     (splitWs ((rustLines pixelOkRequest).headD [])).length ≤ 8 ∧
     2 ≤ (splitWs ((rustLines pixelOkRequest).headD [])).length ∧
     (splitWs ((rustLines pixelOkRequest).headD [])).getD 0 [] = str "POST" ∧
     (splitWs ((rustLines pixelOkRequest).headD [])).getD 1 []
       = str "/pixel") ∧
    (∃ r, (handle_http_request pixelOkRequest).response = some r ∧
      List.isPrefixOf (str "HTTP/1.1 200 OK") r = true ∧
      (handle_http_request pixelOkRequest).writes =
        (match extract_json_body pixelOkRequest with
         | none => []
         | some j =>
           match parse_pixel_request j with
           | none => []
           | some pr => [[pr.x, pr.y, if pr.state then 1 else 0]]) ∧
      (extract_json_body pixelOkRequest = none →
        r = headerTemplate ++ str "12\r\n\r\nMissing JSON") ∧
      (∀ j, extract_json_body pixelOkRequest = some j →
        parse_pixel_request j = none →
        r = headerTemplate ++ str "12\r\n\r\nInvalid JSON") ∧
      (∀ j pr, extract_json_body pixelOkRequest = some j →
        parse_pixel_request j = some pr →
        r = headerTemplate ++ str "2\r\n\r\nOK")) :=
  ⟨by decide,
   pixel_route_always_200 pixelOkRequest (by decide) (by decide) (by decide)
     (by decide) (by decide)⟩

/-- C8: every `POST /clear` request (within the firmware's collection
capacities) is answered with the fixed `HTTP/1.1 200 OK` response of body
`Cleared`, and issues exactly one pipe write, the 3-byte clear sentinel
`[255, 255, 2]`. -/
theorem clear_route_200_and_sentinel (request : Str)
    (_hlines : (rustLines request).length ≤ 32)
    (_hparts : (splitWs ((rustLines request).headD [])).length ≤ 8)
    (hlen2 : 2 ≤ (splitWs ((rustLines request).headD [])).length)
    (hmethod : (splitWs ((rustLines request).headD [])).getD 0 [] = str "POST")
    (hpath : (splitWs ((rustLines request).headD [])).getD 1 []
      = str "/clear") :
    (handle_http_request request).writes = [[255, 255, 2]] ∧
    (handle_http_request request).response
      = some (headerTemplate ++ str "7\r\n\r\nCleared") ∧
    List.isPrefixOf (str "HTTP/1.1 200 OK")
      ((handle_http_request request).response.getD []) = true := by
  rcases hl : rustLines request with _ | ⟨l0, ltail⟩
  · rw [hl] at hmethod
    exact absurd hmethod (by decide)
  · rw [hl] at hmethod hpath hlen2
    simp only [handle_http_request, hl]
    simp only [List.headD] at hmethod hpath hlen2 ⊢
    rw [if_neg (by simp), if_neg (by omega)]
    simp only [hmethod, hpath]
    rw [if_neg (by decide), if_neg (by decide), if_pos (by simp)]
    refine ⟨rfl, build_resp_cleared, ?_⟩
    rw [build_resp_cleared]
    exact response_starts_200 _

/-- A concrete `POST /clear` request. -/
def clearRequest : Str := str "POST /clear HTTP/1.1\r\nHost: p\r\n\r\n"

/-- Witness for `clear_route_200_and_sentinel` at a concrete request. -/
theorem clear_route_200_and_sentinel_witness :
    ((rustLines clearRequest).length ≤ 32 ∧
     (splitWs ((rustLines clearRequest).headD [])).length ≤ 8 ∧
     2 ≤ (splitWs ((rustLines clearRequest).headD [])).length ∧
     (splitWs ((rustLines clearRequest).headD [])).getD 0 [] = str "POST" ∧
     (splitWs ((rustLines clearRequest).headD [])).getD 1 []
       = str "/clear") ∧
    ((handle_http_request clearRequest).writes = [[255, 255, 2]] ∧
     (handle_http_request clearRequest).response
       = some (headerTemplate ++ str "7\r\n\r\nCleared") ∧
     List.isPrefixOf (str "HTTP/1.1 200 OK")
       ((handle_http_request clearRequest).response.getD []) = true) :=
  ⟨by decide,
   clear_route_200_and_sentinel clearRequest (by decide) (by decide)
     (by decide) (by decide) (by decide)⟩

/- ===================== the drawing pipe (main.rs / embassy_sync) ===================== -/

/-- Capacity of the drawing pipe `Pipe<CriticalSectionRawMutex, 64>` created
in `main.rs`. -/
def PIPE_CAP : Nat := 64

/-- Model of `embassy_sync::pipe::Writer::write`, the call
`pipe_writer.write(&data).await` of `handle_http_request`: per the embassy
pipe contract the future completes only once at least one byte fits,
writing `min data.length free` bytes and returning the count (which the
firmware discards with `let _ =`); on a full pipe it stays pending until the
consumer frees space — modelled as `none`. The non-blocking variant
`try_write` is not used by the firmware. -/
def pipeWrite (buf data : List Nat) : Option (List Nat × Nat) :=
  if buf.length < PIPE_CAP then
    some (buf ++ data.take (PIPE_CAP - buf.length),
      min data.length (PIPE_CAP - buf.length))
  else none

/-- The producer path of the network task: perform the handler's pipe writes
in order; `none` when a write blocks with no consumer progress. -/
def applyWrites (buf : List Nat) : List (List Nat) → Option (List Nat)
  | [] => some buf
  | w :: ws =>
    match pipeWrite buf w with
    | none => none
    | some (buf2, _) => applyWrites buf2 ws

/-- C7 counterexample: on a full pipe the awaited producer write does not
complete (it blocks the network task); it is not dropped — the claimed
best-effort outcome `some (buf, 0)` is refuted. -/
theorem full_pipe_write_blocks :
    pipeWrite (List.replicate PIPE_CAP 0) [10, 5, 1] = none ∧
    pipeWrite (List.replicate PIPE_CAP 0) [10, 5, 1]
      ≠ some (List.replicate PIPE_CAP 0, 0) ∧
    applyWrites (List.replicate PIPE_CAP 0) [[10, 5, 1]] = none := by decide

/-- C7 (amended): the producer path is an awaited `Pipe::write`, not a
best-effort write: with the pipe full the write blocks the network task
until space frees; with at least 3 free bytes the whole record is appended;
with exactly 1 free byte only the first byte of the record is written and
the rest is silently dropped (the returned count is discarded). -/
theorem producer_write_is_blocking (rec : List Nat) (h3 : rec.length = 3)
    (buf : List Nat) :
    (buf.length = PIPE_CAP → applyWrites buf [rec] = none) ∧
    (buf.length + 3 ≤ PIPE_CAP → applyWrites buf [rec] = some (buf ++ rec)) ∧
    (buf.length = PIPE_CAP - 1 →
      applyWrites buf [rec] = some (buf ++ rec.take 1)) := by
  refine ⟨?_, ?_, ?_⟩
  · intro hfull
    simp [applyWrites, pipeWrite, hfull]
  · intro hfree
    have hlt : buf.length < PIPE_CAP := by omega
    have htake : rec.take (PIPE_CAP - buf.length) = rec :=
      List.take_of_length_le (by omega)
    simp [applyWrites, pipeWrite, hlt, htake]
  · intro hone
    have hlt : buf.length < PIPE_CAP := by simp [hone, PIPE_CAP]
    have hsub : PIPE_CAP - buf.length = 1 := by
      simp [hone, PIPE_CAP]
    simp [applyWrites, pipeWrite, hlt, hsub]

/-- Witness for `producer_write_is_blocking` at the record `[10, 5, 1]` and a
pipe holding 61 bytes. -/
theorem producer_write_is_blocking_witness :
    ([10, 5, 1] : List Nat).length = 3 ∧
    (((List.replicate 61 0 : List Nat).length = PIPE_CAP →
       applyWrites (List.replicate 61 0) [[10, 5, 1]] = none) ∧
     ((List.replicate 61 0 : List Nat).length + 3 ≤ PIPE_CAP →
       applyWrites (List.replicate 61 0) [[10, 5, 1]]
         = some (List.replicate 61 0 ++ [10, 5, 1])) ∧
     ((List.replicate 61 0 : List Nat).length = PIPE_CAP - 1 →
       applyWrites (List.replicate 61 0) [[10, 5, 1]]
         = some (List.replicate 61 0 ++ [10, 5, 1].take 1))) :=
  ⟨by decide, producer_write_is_blocking [10, 5, 1] (by decide)
    (List.replicate 61 0)⟩

/- ===================== main.rs task structure ===================== -/

/-- The two tasks defined by the firmware sources. -/
inductive DeviceTask where
  | networking
  | display
deriving DecidableEq

/-- One step of `main` in `main.rs`. -/
inductive MainEffect where
  | initPeripherals
  | createDrawingPipe
  | setupWifi
  | spawnTask (t : DeviceTask)
  | idleLoop
deriving DecidableEq

/-- The effect trace of `main` in `main.rs`: initialize peripherals, create
and split the drawing pipe, set up the wifi stack, spawn the networking
task, then idle. The display/renderer spawn — along with the
`mod display_task` import and the display setup — is commented out in the
source, so no `spawnTask display` step occurs. -/
def mainEffects : List MainEffect :=
  [MainEffect.initPeripherals, MainEffect.createDrawingPipe,
   MainEffect.setupWifi, MainEffect.spawnTask DeviceTask.networking,
   MainEffect.idleLoop]

/-- The tasks `main` spawns, in order. -/
def mainSpawnedTasks : List DeviceTask :=
  mainEffects.filterMap (fun e => match e with
    | MainEffect.spawnTask t => some t
    | _ => none)

/-- C3: the renderer/display task is never spawned — `main` spawns only the
networking task — so the drawing pipe has no consumer, and once 64 bytes of
records have been produced the networking task's next awaited pipe write
never completes. -/
theorem renderer_task_not_spawned :
    mainSpawnedTasks = [DeviceTask.networking] ∧
    DeviceTask.display ∉ mainSpawnedTasks ∧
    applyWrites (List.replicate PIPE_CAP 0) [[255, 255, 2]] = none := by
  decide

/-- C10: when a drain step sees fewer than 3 bytes in the pipe (a record
split across reads, or a trailing fragment), the bytes are consumed and
silently discarded — not buffered for completion — the step reports no
update and the canvas is unchanged; in particular the record `[10, 5, 1]`
delivered as `[10, 5]` then `[1]` is lost entirely. -/
theorem split_record_discarded (c : Canvas) (pipe : List Nat)
    (h : pipe.length < 3) :
    update_canvas c pipe = (c, [], false) ∧
    (update_canvas c [10, 5] = (c, [], false) ∧
     update_canvas c [1] = (c, [], false)) :=
  ⟨update_canvas_short c pipe h,
   update_canvas_short c [10, 5] (by decide),
   update_canvas_short c [1] (by decide)⟩

/-- Witness for `split_record_discarded` on the cleared canvas with the
2-byte fragment `[10, 5]`. -/
theorem split_record_discarded_witness :
    ([10, 5] : List Nat).length < 3 ∧
    (update_canvas clearedCanvas [10, 5] = (clearedCanvas, [], false) ∧
     (update_canvas clearedCanvas [10, 5] = (clearedCanvas, [], false) ∧
      update_canvas clearedCanvas [1] = (clearedCanvas, [], false))) :=
  ⟨by decide, split_record_discarded clearedCanvas [10, 5] (by decide)⟩

/- ===================== WebSocket upgrade (persistent dialect) ===================== -/

/-- Does a header line for `name` occur after the request line? -/
def hasHeader (request : Str) (name : Str) : Bool :=
  ((rustLines request).drop 1).any
    (fun line => List.isPrefixOf (name ++ str ":") line)

/-- The value of the first header line `name: value`. -/
def headerValue (request : Str) (name : Str) : Option Str :=
  ((rustLines request).drop 1).findSome? (fun line =>
    if List.isPrefixOf (name ++ str ": ") line then
      some (line.drop (name.length + 2))
    else none)

/-- The WebSocket upgrade header set named by the spec: `Upgrade`,
`Connection` and `Sec-WebSocket-Key`. -/
def hasUpgradeHeaderSet (request : Str) : Bool :=
  hasHeader request (str "Upgrade") &&
  hasHeader request (str "Connection") &&
  hasHeader request (str "Sec-WebSocket-Key")

/-- The per-connection states of the spec's persistent-dialect state machine
`AwaitingHandshake → Open → {Open, RepliedPong, Closing} → Closed`. -/
inductive WsState where
  | awaitingHandshake
  | opened
  | repliedPong
  | closing
  | wsClosed
deriving DecidableEq

/-- Outcome of the engine's first exchange on a connection: the emitted
response, the next protocol state, and whether the connection continues as a
long-lived frame loop (`true`) or closes after this one-shot exchange
(`false`). -/
structure WsEngineInit where
  response : Str
  nextState : WsState
  persistent : Bool

/-- Modelled from the spec: the WebSocket opening handshake of the
ProtocolEngine's persistent dialect. This path is not present in the
sources under `src/` — `networking_task.rs` implements only the one-shot
HTTP dialect, while the browser client (`webapp-doodle-rs/src/web.rs`)
connects to `ws://<pico>:80/ws` — so, per the spec's words: a request
carrying the upgrade header set gets the 101 handshake response with the
computed accept key and the connection enters the `Open` frame-loop state;
any other request is handled by the one-shot HTTP path. The accept-key
computation is kept abstract as a parameter. -/
def wsHandshake (acceptKey : Str → Str) (request : Str) : WsEngineInit :=
  if hasUpgradeHeaderSet request then
    { response :=
        str "HTTP/1.1 101 Switching Protocols\r\nUpgrade: websocket\r\nConnection: Upgrade\r\nSec-WebSocket-Accept: "
          ++ acceptKey ((headerValue request (str "Sec-WebSocket-Key")).getD [])
          ++ str "\r\n\r\n",
      nextState := WsState.opened,
      persistent := true }
  else
    { response := (handle_http_request request).response.getD [],
      nextState := WsState.wsClosed,
      persistent := false }

/-- C2 (spec-modelled): for every connection whose initial request carries
the upgrade header set, the engine completes the opening handshake — the
response is the `101 Switching Protocols` reply carrying the accept key
computed from the client's `Sec-WebSocket-Key` — and the connection
transitions into the long-lived `Open` frame-loop state instead of the
one-shot HTTP path. -/
theorem ws_upgrade_completes_handshake (acceptKey : Str → Str)
    (request : Str) (h : hasUpgradeHeaderSet request = true) :
    (wsHandshake acceptKey request).nextState = WsState.opened ∧
    (wsHandshake acceptKey request).persistent = true ∧
    List.isPrefixOf (str "HTTP/1.1 101 Switching Protocols")
      (wsHandshake acceptKey request).response = true ∧
    (wsHandshake acceptKey request).response =
      str "HTTP/1.1 101 Switching Protocols\r\nUpgrade: websocket\r\nConnection: Upgrade\r\nSec-WebSocket-Accept: "
        ++ acceptKey ((headerValue request (str "Sec-WebSocket-Key")).getD [])
        ++ str "\r\n\r\n" := by
  simp only [wsHandshake, if_pos h]
  refine ⟨trivial, trivial, ?_, trivial⟩
  exact isPrefixOf_append (isPrefixOf_append (by decide))

/-- A concrete upgrade request. -/
def upgradeRequest : Str :=
  str "GET /ws HTTP/1.1\r\nHost: pico\r\nUpgrade: websocket\r\nConnection: Upgrade\r\nSec-WebSocket-Key: dGhlIHNhbXBsZSBub25jZQ==\r\n\r\n"

/-- Witness for `ws_upgrade_completes_handshake` with the identity accept-key
function at a concrete upgrade request. -/
theorem ws_upgrade_completes_handshake_witness :
    hasUpgradeHeaderSet upgradeRequest = true ∧
    ((wsHandshake (fun k => k) upgradeRequest).nextState = WsState.opened ∧
     (wsHandshake (fun k => k) upgradeRequest).persistent = true ∧
     List.isPrefixOf (str "HTTP/1.1 101 Switching Protocols")
       (wsHandshake (fun k => k) upgradeRequest).response = true ∧
     (wsHandshake (fun k => k) upgradeRequest).response =
       str "HTTP/1.1 101 Switching Protocols\r\nUpgrade: websocket\r\nConnection: Upgrade\r\nSec-WebSocket-Accept: "
         ++ (fun (k : Str) => k)
             ((headerValue upgradeRequest (str "Sec-WebSocket-Key")).getD [])
         ++ str "\r\n\r\n") :=
  ⟨by decide,
   ws_upgrade_completes_handshake (fun k => k) upgradeRequest (by decide)⟩

/- ===================== response framing (build_simple_response) ===================== -/

/-- Value of a little-endian decimal digit list. -/
def valLE : List Nat → Nat
  | [] => 0
  | d :: t => d + 10 * valLE t

/-- Value of a big-endian decimal digit string. -/
def decimalValue (s : Str) : Nat :=
  s.foldl (fun a c => 10 * a + (c.toNat - 48)) 0

theorem strBytes_append (a b : Str) :
    strBytes (a ++ b) = strBytes a + strBytes b := by
  simp [strBytes]

theorem digitChar_utf8Size : ∀ d, d < 10 → (digitChar d).utf8Size = 1 := by
  decide

theorem digitChar_isDigit : ∀ d, d < 10 → (digitChar d).isDigit = true := by
  decide

theorem digitChar_toNat : ∀ d, d < 10 → (digitChar d).toNat = 48 + d := by
  decide

theorem digitChar_ne_zero : ∀ d, d < 10 → d ≠ 0 → digitChar d ≠ '0' := by
  decide

theorem strBytes_digits (l : List Nat) (h : ∀ d ∈ l, d < 10) :
    strBytes (l.map digitChar) = l.length := by
  induction l with
  | nil => rfl
  | cons d t ih =>
    have hd : d < 10 := h d (List.mem_cons_self d t)
    have ht : ∀ d ∈ t, d < 10 := fun e he => h e (List.mem_cons_of_mem d he)
    simp only [List.map_cons, List.length_cons]
    have : strBytes (digitChar d :: t.map digitChar)
        = (digitChar d).utf8Size + strBytes (t.map digitChar) := by
      simp [strBytes]
    rw [this, digitChar_utf8Size d hd, ih ht]
    omega

theorem foldl_pushChar (ds : List Nat) (r : Str) (hds : ∀ d ∈ ds, d < 10)
    (hfit : strBytes r + ds.length ≤ 512) :
    ds.foldl (fun acc d => pushChar acc (digitChar d)) r
      = r ++ ds.map digitChar := by
  induction ds generalizing r with
  | nil => simp
  | cons d t ih =>
    have hd : d < 10 := hds d (List.mem_cons_self d t)
    have ht : ∀ e ∈ t, e < 10 := fun e he => hds e (List.mem_cons_of_mem d he)
    have hpush : pushChar r (digitChar d) = r ++ [digitChar d] := by
      unfold pushChar
      rw [digitChar_utf8Size d hd, if_pos (by simp at hfit; omega)]
    have hbytes : strBytes (r ++ [digitChar d]) = strBytes r + 1 := by
      rw [strBytes_append]
      simp [strBytes, digitChar_utf8Size d hd]
    simp only [List.foldl_cons, hpush]
    rw [ih (r ++ [digitChar d]) ht (by rw [hbytes]; simp at hfit; omega)]
    simp

theorem valBE_reverse (l : List Nat) :
    l.reverse.foldl (fun a d => 10 * a + d) 0 = valLE l := by
  induction l with
  | nil => rfl
  | cons d t ih =>
    simp only [List.reverse_cons, List.foldl_append, List.foldl_cons,
      List.foldl_nil, ih, valLE]
    omega

theorem decimalValue_map (l : List Nat) (h : ∀ d ∈ l, d < 10) :
    decimalValue (l.map digitChar) = l.foldl (fun a d => 10 * a + d) 0 := by
  unfold decimalValue
  rw [List.foldl_map]
  have key : ∀ (m : List Nat), (∀ d ∈ m, d < 10) → ∀ (a : Nat),
      m.foldl (fun a d => 10 * a + ((digitChar d).toNat - 48)) a
        = m.foldl (fun a d => 10 * a + d) a := by
    intro m
    induction m with
    | nil => intro _ a; rfl
    | cons d t ih =>
      intro hm a
      simp only [List.foldl_cons]
      rw [digitChar_toNat d (hm d (List.mem_cons_self d t))]
      have hsub : 48 + d - 48 = d := by omega
      rw [hsub]
      exact ih (fun e he => hm e (List.mem_cons_of_mem d he)) _
  exact key l h 0

theorem digitLoopRec_spec : ∀ (slots n : Nat), n < 10 ^ slots →
    ∃ ds, digitLoopRec slots n = some ds ∧
      (∀ d ∈ ds, d < 10) ∧
      valLE ds = n ∧
      (n = 0 → ds = []) ∧
      (n ≠ 0 → ds ≠ [] ∧ (∀ d, ds.getLast? = some d → d ≠ 0)) ∧
      (∀ k, n < 10 ^ k → ds.length ≤ k) := by
  intro slots
  induction slots with
  | zero =>
    intro n hn
    have hn0 : n = 0 := by simpa using hn
    subst hn0
    refine ⟨[], rfl, ?_, rfl, fun _ => rfl, fun hc => absurd rfl hc, ?_⟩
    · intro d hd; simp at hd
    · intro k _; simp
  | succ s ih =>
    intro n hn
    cases n with
    | zero =>
      refine ⟨[], rfl, ?_, rfl, fun _ => rfl, fun hc => absurd rfl hc, ?_⟩
      · intro d hd; simp at hd
      · intro k _; simp
    | succ m =>
      have hdiv : (m + 1) / 10 < 10 ^ s := by
        rw [Nat.div_lt_iff_lt_mul (by norm_num)]
        calc m + 1 < 10 ^ (s + 1) := hn
          _ = 10 ^ s * 10 := by rw [pow_succ]
      obtain ⟨ds', hds', hall', hval', hzero', hnz', hlen'⟩ :=
        ih ((m + 1) / 10) hdiv
      have hnil_iff : ds' = [] → (m + 1) / 10 = 0 := by
        intro hdsnil
        by_contra hq
        exact absurd hdsnil (hnz' hq).1
      refine ⟨(m + 1) % 10 :: ds', ?_, ?_, ?_, ?_, ?_, ?_⟩
      · simp only [digitLoopRec, hds', Option.map]
      · intro d hd
        rcases List.mem_cons.mp hd with h1 | h2
        · rw [h1]; exact Nat.mod_lt _ (by norm_num)
        · exact hall' d h2
      · simp only [valLE, hval']
        exact Nat.mod_add_div (m + 1) 10
      · intro hc; exact absurd hc (Nat.succ_ne_zero m)
      · intro _
        refine ⟨by simp, ?_⟩
        intro d hd
        rcases hds'' : ds' with _ | ⟨e, es⟩
        · rw [hds''] at hd
          simp only [List.getLast?_singleton, Option.some.injEq] at hd
          have hq : (m + 1) / 10 = 0 := hnil_iff hds''
          intro hd0
          have := Nat.mod_add_div (m + 1) 10
          omega
        · rw [hds''] at hd
          rw [List.getLast?_cons_cons] at hd
          have hq : (m + 1) / 10 ≠ 0 := by
            intro h0
            rw [hzero' h0] at hds''
            cases hds''
          have := (hnz' hq).2 d
          rw [hds''] at this
          exact this hd
      · intro k hk
        cases k with
        | zero => simp at hk
        | succ k' =>
          have hk' : (m + 1) / 10 < 10 ^ k' := by
            rw [Nat.div_lt_iff_lt_mul (by norm_num)]
            calc m + 1 < 10 ^ (k' + 1) := hk
              _ = 10 ^ k' * 10 := by rw [pow_succ]
          have := hlen' k' hk'
          simp only [List.length_cons]
          omega

theorem pushStr_fits (r t : Str) (h : strBytes r + strBytes t ≤ 512) :
    pushStr r t = r ++ t := by
  unfold pushStr; rw [if_pos h]

/-- C9 counterexample: for the 400-byte body `aaaa…a`, the emitted response is
the header template with a correct `Content-Length: 400` and the blank line,
but without the body — the final capacity-checked push of the 512-byte
heapless string fails silently — so the response is not the claimed
`template ++ digits ++ CRLF CRLF ++ body`. -/
theorem long_body_truncated :
    build_simple_response (List.replicate 400 'a')
      = some (headerTemplate ++ str "400\r\n\r\n") ∧
    headerTemplate ++ str "400\r\n\r\n"
      ≠ headerTemplate ++ str "400" ++ str "\r\n\r\n"
          ++ List.replicate 400 'a' := by decide

/-- C9 (amended): for every body whose total response fits the 512-byte
heapless buffer (byte length at most 301), the emitted response is exactly
the fixed header template, the `Content-Length` digits — nonempty, decimal,
no leading zeros, and of value equal to the body's byte length — then
`\r\n\r\n`, then the body. For larger bodies the body push fails silently
(see the counterexample), and a body of 10^8 bytes or more would panic the
digit loop. -/

theorem response_framing (body : Str) (hfit : strBytes body ≤ 301) :
    ∃ ds : Str, build_simple_response body
        = some (headerTemplate ++ ds ++ str "\r\n\r\n" ++ body) ∧
      ds ≠ [] ∧ (∀ c ∈ ds, c.isDigit = true) ∧
      (ds.headD '0' = '0' → ds = ['0']) ∧
      decimalValue ds = strBytes body := by
  have hhdr : pushStr (pushStr (pushStr (pushStr (pushStr (pushStr (pushStr []
      (str "HTTP/1.1 200 OK\r\n")) (str "Access-Control-Allow-Origin: *\r\n"))
      (str "Access-Control-Allow-Methods: GET, POST, OPTIONS\r\n"))
      (str "Access-Control-Allow-Headers: Content-Type\r\n"))
      (str "Connection: close\r\n")) (str "Content-Type: text/plain\r\n"))
      (str "Content-Length: ") = headerTemplate := by decide
  have hhdrBytes : strBytes headerTemplate = 204 := by decide
  have hcrlf : strBytes (str "\r\n\r\n") = 4 := by decide
  have tailEq : ∀ (ds : List Nat), (∀ d ∈ ds, d < 10) →
      204 + ds.length + 4 + strBytes body ≤ 512 →
      pushStr (pushStr (ds.foldl (fun acc d => pushChar acc (digitChar d))
          headerTemplate) (str "\r\n\r\n")) body
        = headerTemplate ++ ds.map digitChar ++ str "\r\n\r\n" ++ body := by
    intro ds hds hfit2
    have h1 : ds.foldl (fun acc d => pushChar acc (digitChar d)) headerTemplate
        = headerTemplate ++ ds.map digitChar :=
      foldl_pushChar ds headerTemplate hds (by rw [hhdrBytes]; omega)
    have hb1 : strBytes (headerTemplate ++ ds.map digitChar)
        = 204 + ds.length := by
      rw [strBytes_append, hhdrBytes, strBytes_digits ds hds]
    have h2 : pushStr (headerTemplate ++ ds.map digitChar) (str "\r\n\r\n")
        = headerTemplate ++ ds.map digitChar ++ str "\r\n\r\n" :=
      pushStr_fits _ _ (by rw [hb1, hcrlf]; omega)
    have hb2 : strBytes (headerTemplate ++ ds.map digitChar ++ str "\r\n\r\n")
        = 204 + ds.length + 4 := by
      rw [strBytes_append, hb1, hcrlf]
    have h3 : pushStr (headerTemplate ++ ds.map digitChar ++ str "\r\n\r\n")
        body = headerTemplate ++ ds.map digitChar ++ str "\r\n\r\n" ++ body :=
      pushStr_fits _ _ (by rw [hb2]; omega)
    rw [h1, h2, h3]
  simp only [build_simple_response, hhdr]
  by_cases hz : strBytes body = 0
  · rw [if_pos hz]
    refine ⟨['0'], ?_, by simp, by decide, fun _ => rfl, by rw [hz]; decide⟩
    have hmap0 : List.map digitChar [0] = ['0'] := by decide
    have := tailEq [0] (by decide) (by simp; omega)
    rw [hmap0] at this
    simp only [List.foldl_cons, List.foldl_nil] at this ⊢
    rw [this]
  · rw [if_neg hz]
    have hlt : strBytes body < 10 ^ 8 := by omega
    obtain ⟨dsLE, hds, hall, hval, _, hnz, hlen⟩ :=
      digitLoopRec_spec 8 (strBytes body) hlt
    have hlen3 : dsLE.length ≤ 3 := hlen 3 (by omega)
    rw [hds]
    simp only [Option.map]
    have hallrev : ∀ d ∈ dsLE.reverse, d < 10 := by
      intro d hd; exact hall d (List.mem_reverse.mp hd)
    have hrevlen : dsLE.reverse.length = dsLE.length := List.length_reverse _
    have htail := tailEq dsLE.reverse hallrev (by rw [hrevlen]; omega)
    refine ⟨dsLE.reverse.map digitChar, ?_, ?_, ?_, ?_, ?_⟩
    · simp only [List.foldl_cons, List.foldl_nil] at htail ⊢
      rw [htail]
    · have : dsLE ≠ [] := (hnz hz).1
      intro hmap
      rw [List.map_eq_nil_iff] at hmap
      rw [List.reverse_eq_nil_iff] at hmap
      exact this hmap
    · intro c hc
      rw [List.mem_map] at hc
      obtain ⟨d, hd, hcd⟩ := hc
      rw [← hcd]
      exact digitChar_isDigit d (hallrev d hd)
    · intro hhead
      exfalso
      have hne : dsLE ≠ [] := (hnz hz).1
      obtain ⟨d, hdlast⟩ : ∃ d, dsLE.getLast? = some d := by
        rcases hq : dsLE.getLast? with _ | d
        · rw [List.getLast?_eq_none_iff] at hq
          exact absurd hq hne
        · exact ⟨d, rfl⟩
      have hd0 : d ≠ 0 := (hnz hz).2 d hdlast
      have hd10 : d < 10 := by
        obtain ⟨hne2, heq⟩ := List.mem_getLast?_eq_getLast (l := dsLE)
          (x := d) (by rw [hdlast]; rfl)
        refine hall d ?_
        rw [heq]
        exact List.getLast_mem hne2
      have hhd : (dsLE.reverse.map digitChar).head? = some (digitChar d) := by
        rw [List.head?_map, List.head?_reverse, hdlast]
        rfl
      have : (dsLE.reverse.map digitChar).headD '0' = digitChar d := by
        rw [List.headD_eq_head?_getD, hhd]
        rfl
      rw [this] at hhead
      exact digitChar_ne_zero d hd10 hd0 hhead
    · rw [decimalValue_map dsLE.reverse hallrev, valBE_reverse, hval]

/-- Witness for `response_framing` at the body `OK`. -/
theorem response_framing_witness :
    strBytes (str "OK") ≤ 301 ∧
    (∃ ds : Str, build_simple_response (str "OK")
        = some (headerTemplate ++ ds ++ str "\r\n\r\n" ++ str "OK") ∧
      ds ≠ [] ∧ (∀ c ∈ ds, c.isDigit = true) ∧
      (ds.headD '0' = '0' → ds = ['0']) ∧
      decimalValue ds = strBytes (str "OK")) :=
  ⟨by decide, response_framing (str "OK") (by decide)⟩
